import Mathlib
/-!
Shallow embedding of the store/workflow layer of the pr-review-service
repository (`internal/database/database.go`, data types from
`internal/models/models.go`).  The Postgres store is modelled as an
in-memory state: lists of team names, users, pull-request rows and
reviewer-assignment pairs.  Randomness is passed explicitly: the
permutation produced by `rand.Perm` and the index drawn by `rand.IntN`
become parameters of the operations that consume them.  Each mutating
operation returns its result together with the post-state; on an error the
Go code rolls the transaction back, so the returned state is the input
state unchanged.
-/
/-! ### Lemmas about `selectRandomReviewers` -/
/-! ### Lemmas about the candidate query -/
/-! ### Concrete scenario (spec §8): team "core" with author A, active
teammates B and C, inactive D -/

/-- Error codes from `internal/models/models.go`, plus `internal` for raw
driver errors that the database layer returns unwrapped (the HTTP layer
maps those to INTERNAL_ERROR). -/
inductive DBError where
  | teamExists
  | prExists
  | prMerged
  | notAssigned
  | noCandidate
  | notFound
  | internal
deriving Repr, DecidableEq

/-- `models.StatusOpen`. -/
def StatusOpen : String := "OPEN"

/-- `models.StatusMerged`. -/
def StatusMerged : String := "MERGED"

/-- `models.User`. -/
structure User where
  userID : String
  username : String
  teamName : String
  isActive : Bool
deriving Repr, DecidableEq

/-- `models.TeamMember`. -/
structure TeamMember where
  userID : String
  username : String
  isActive : Bool
deriving Repr, DecidableEq

/-- `models.Team`. -/
structure Team where
  teamName : String
  members : List TeamMember
deriving Repr, DecidableEq

/-- `models.PullRequest`.  `createdAt` is a `Nat` timestamp (the column is
NOT NULL); `mergedAt` is optional (NULL until merged).  Stored rows keep
`assignedReviewers` empty (the Go struct tags it `db:"-"`); the operations
fill it in returned values from the `pr_reviewers` table. -/
structure PullRequest where
  pullRequestID : String
  pullRequestName : String
  authorID : String
  status : String
  assignedReviewers : List String
  createdAt : Nat
  mergedAt : Option Nat
deriving Repr, DecidableEq

/-- `models.PullRequestShort`. -/
structure PullRequestShort where
  pullRequestID : String
  pullRequestName : String
  authorID : String
  status : String
deriving Repr, DecidableEq

/-- The relational store: `teams`, `users`, `pull_requests` and
`pr_reviewers` (pairs `(pull_request_id, user_id)`). -/
structure State where
  teams : List String
  users : List User
  prs : List PullRequest
  reviewers : List (String × String)
deriving Repr, DecidableEq

/-- `SELECT ... FROM users WHERE user_id = $1` (user_id is the primary
key, so the first match is the row). -/
def findUser (s : State) (uid : String) : Option User :=
  s.users.find? (fun u => u.userID == uid)

/-- `SELECT ... FROM pull_requests WHERE pull_request_id = $1`. -/
def findPR (s : State) (pid : String) : Option PullRequest :=
  s.prs.find? (fun p => p.pullRequestID == pid)

/-- `getReviewersFromDB` / `SELECT user_id FROM pr_reviewers WHERE
pull_request_id = $1`. -/
def getReviewersFromDB (s : State) (prID : String) : List String :=
  (s.reviewers.filter (fun a => a.1 == prID)).map (fun a => a.2)

/-- `SELECT user_id FROM users WHERE team_name = $1 AND is_active = true
AND user_id != $2` — the candidate query shared by `CreatePR` and
`ReassignReviewer`. -/
def activeTeammates (s : State) (teamName excludeID : String) : List String :=
  (s.users.filter (fun u =>
    u.teamName == teamName && u.isActive && u.userID != excludeID)).map
    (fun u => u.userID)

/-- `selectRandomReviewers` from `database.go`.  The permutation that
`rand.Perm(len(candidates))` produces is passed explicitly as `perm`;
`selected[i] = candidates[perm[i]]` for `i < max`. -/
def selectRandomReviewers (perm : List Nat) (candidates : List String)
    (max : Nat) : List String :=
  if candidates.length ≤ max then candidates
  else (perm.take max).map (fun i => candidates.getD i "")

/-- `CreatePR` from `database.go`.  `now` is `time.Now()` and `perm` the
permutation drawn inside `selectRandomReviewers`. -/
def CreatePR (s : State) (prID prName authorID : String) (now : Nat)
    (perm : List Nat) : Except DBError PullRequest × State :=
  if s.prs.any (fun p => p.pullRequestID == prID) then
    (Except.error DBError.prExists, s)
  else
    match findUser s authorID with
    | none => (Except.error DBError.notFound, s)
    | some author =>
      let candidates := activeTeammates s author.teamName authorID
      let reviewers := selectRandomReviewers perm candidates 2
      let row : PullRequest := {
        pullRequestID := prID,
        pullRequestName := prName,
        authorID := authorID,
        status := StatusOpen,
        assignedReviewers := [],
        createdAt := now,
        mergedAt := none }
      let s' : State := { s with
        prs := s.prs ++ [row],
        reviewers := s.reviewers ++ reviewers.map (fun r => (prID, r)) }
      (Except.ok { row with assignedReviewers := reviewers }, s')

/-- `MergePR` from `database.go`. -/
def MergePR (s : State) (prID : String) (now : Nat) :
    Except DBError PullRequest × State :=
  match findPR s prID with
  | none => (Except.error DBError.notFound, s)
  | some pr =>
    if pr.status == StatusMerged then
      (Except.ok { pr with assignedReviewers := getReviewersFromDB s prID }, s)
    else
      let s' : State := { s with prs := s.prs.map (fun p =>
        if p.pullRequestID == prID then
          { p with status := StatusMerged, mergedAt := some now }
        else p) }
      (Except.ok { pr with
        status := StatusMerged,
        mergedAt := some now,
        assignedReviewers := getReviewersFromDB s' prID }, s')

/-- `GetPR` from `database.go`. -/
def GetPR (s : State) (prID : String) : Except DBError PullRequest :=
  match findPR s prID with
  | none => Except.error DBError.notFound
  | some pr => Except.ok { pr with assignedReviewers := getReviewersFromDB s prID }

/-- The candidate list that `ReassignReviewer` builds: the shared
candidate query (author excluded) with every currently assigned reviewer
filtered out. -/
def reassignCandidates (s : State) (prID authorID teamName : String) :
    List String :=
  (activeTeammates s teamName authorID).filter
    (fun uid => !(getReviewersFromDB s prID).contains uid)

/-- `ReassignReviewer` from `database.go`.  `choice` stands for the value
drawn by `rand.IntN(len(candidates))` (reduced modulo the length so every
natural models some draw).  If `oldUserID` is assigned but not a known
user, the join scan errors and the Go code returns that raw error
(`DBError.internal` here) — the schema's foreign key makes this
unreachable in well-formed states. -/
def ReassignReviewer (s : State) (prID oldUserID : String) (choice : Nat) :
    Except DBError (PullRequest × String) × State :=
  match findPR s prID with
  | none => (Except.error DBError.notFound, s)
  | some pr =>
    if pr.status == StatusMerged then
      (Except.error DBError.prMerged, s)
    else if !(s.reviewers.contains (prID, oldUserID)) then
      (Except.error DBError.notAssigned, s)
    else
      match findUser s oldUserID with
      | none => (Except.error DBError.internal, s)
      | some oldUser =>
        let candidates := reassignCandidates s prID pr.authorID oldUser.teamName
        if candidates.length = 0 then
          (Except.error DBError.noCandidate, s)
        else
          let newReviewer := candidates.getD (choice % candidates.length) ""
          let s' : State := { s with reviewers :=
            (s.reviewers.filter (fun a => a ≠ (prID, oldUserID))) ++
              [(prID, newReviewer)] }
          match GetPR s' prID with
          | Except.error e => (Except.error e, s')
          | Except.ok updated => (Except.ok (updated, newReviewer), s')

/-- Projection used by `GetUserReviews` (the SELECT column list). -/
def toShort (p : PullRequest) : PullRequestShort :=
  { pullRequestID := p.pullRequestID,
    pullRequestName := p.pullRequestName,
    authorID := p.authorID,
    status := p.status }

/-- `GetUserReviews` from `database.go`: join `pull_requests` with
`pr_reviewers` on the reviewer (the pair is UNIQUE in the schema, so the
join keeps each pull request at most once), `ORDER BY pr.created_at
DESC`. -/
def GetUserReviews (s : State) (userID : String) : List PullRequestShort :=
  ((s.prs.filter (fun p =>
      s.reviewers.contains (p.pullRequestID, userID))).mergeSort
    (fun a b => b.createdAt ≤ a.createdAt)).map toShort

/-- `GetTeam` from `database.go`: existence check against `teams`, then
members from `users` with `ORDER BY username`. -/
def GetTeam (s : State) (teamName : String) : Except DBError Team :=
  if !(s.teams.contains teamName) then Except.error DBError.notFound
  else
    Except.ok {
      teamName := teamName,
      members := ((s.users.filter (fun u => u.teamName == teamName)).map
        (fun u => ({ userID := u.userID, username := u.username, isActive := u.isActive } : TeamMember))).mergeSort
        (fun a b => a.username ≤ b.username) }

/-- `SetUserActive` from `database.go`.  The Go code maps ANY error from
the UPDATE-RETURNING scan — `sql.ErrNoRows` and infrastructure failures
(connection loss, transaction abort) alike — to `models.ErrNotFound`;
`infraFail` models such an infrastructure failure occurring during the
query, in which case the statement does not commit. -/

def SetUserActive (s : State) (userID : String) (isActive : Bool)
    (infraFail : Bool) : Except DBError User × State :=
  if infraFail then (Except.error DBError.notFound, s)
  else
    match findUser s userID with
    | none => (Except.error DBError.notFound, s)
    | some u =>
      (Except.ok { u with isActive := isActive },
        { s with users := s.users.map (fun v =>
          if v.userID == userID then { v with isActive := isActive } else v) })

/-- Well-formedness from the schema: `user_id` is the primary key of
`users`. -/
def usersNodup (s : State) : Prop := (s.users.map User.userID).Nodup

def userA : User :=
  { userID := "A", username := "alice", teamName := "core", isActive := true }

def userB : User :=
  { userID := "B", username := "bob", teamName := "core", isActive := true }

def userC : User :=
  { userID := "C", username := "carol", teamName := "core", isActive := true }

def userD : User :=
  { userID := "D", username := "dave", teamName := "core", isActive := false }

def sW : State :=
  { teams := ["core"], users := [userA, userB, userC, userD], prs := [],
    reviewers := [] }

def rowP1 : PullRequest :=
  { pullRequestID := "p1", pullRequestName := "fix", authorID := "A",
    status := StatusOpen, assignedReviewers := [], createdAt := 100,
    mergedAt := none }

def prW : PullRequest := { rowP1 with assignedReviewers := ["B", "C"] }

/-- The store after `CreatePR sW "p1" "fix" "A"`. -/
def s1W : State :=
  { sW with prs := [rowP1], reviewers := [("p1", "B"), ("p1", "C")] }

def pr1M : PullRequest :=
  { rowP1 with
    status := StatusMerged,
    mergedAt := some 200,
    assignedReviewers := ["B", "C"] }

/-- The store after merging p1 at time 200. -/
def s2W : State :=
  { s1W with prs := [{ rowP1 with status := StatusMerged, mergedAt := some 200 }] }

/-- The replacement reviewer `candidates[rand.IntN(len(candidates))]`
that `ReassignReviewer` draws. -/
def reassignPick (s : State) (prID authorID teamName : String)
    (choice : Nat) : String :=
  (reassignCandidates s prID authorID teamName).getD
    (choice % (reassignCandidates s prID authorID teamName).length) ""

/-- The store after `ReassignReviewer` swaps `(prID, oldUserID)` for
`(prID, newR)`. -/
def reassignState (s : State) (prID oldUserID newR : String) : State :=
  { s with reviewers :=
    (s.reviewers.filter (fun a => a ≠ (prID, oldUserID))) ++ [(prID, newR)] }

def userDActive : User := { userD with isActive := true }

/-- The store of `s1W` after activating D (spec §8 scenario retry). -/
def sActW : State := { s1W with users := [userA, userB, userC, userDActive] }

/-- The store of `sActW` after reassigning B to D on p1. -/
def sReW : State := { sActW with reviewers := [("p1", "C"), ("p1", "D")] }

theorem selectRandomReviewers_subset (perm : List Nat) (candidates : List String)
    (m : Nat) (hperm : perm.Perm (List.range candidates.length)) :
    ∀ r ∈ selectRandomReviewers perm candidates m, r ∈ candidates := by
  intro r hr
  unfold selectRandomReviewers at hr
  split at hr
  · exact hr
  · obtain ⟨i, hi, rfl⟩ := List.mem_map.mp hr
    have hiL : i < candidates.length :=
      List.mem_range.mp (hperm.mem_iff.mp (List.mem_of_mem_take hi))
    rw [List.getD_eq_getElem candidates "" hiL]
    exact List.getElem_mem hiL

theorem selectRandomReviewers_length (perm : List Nat) (candidates : List String)
    (m : Nat) (hperm : perm.Perm (List.range candidates.length)) :
    (selectRandomReviewers perm candidates m).length = min m candidates.length := by
  unfold selectRandomReviewers
  split
  · omega
  · have hp : perm.length = candidates.length := by
      simpa using hperm.length_eq
    simp [hp]

theorem selectRandomReviewers_nodup (perm : List Nat) (candidates : List String)
    (m : Nat) (hperm : perm.Perm (List.range candidates.length))
    (hnd : candidates.Nodup) :
    (selectRandomReviewers perm candidates m).Nodup := by
  unfold selectRandomReviewers
  split
  · exact hnd
  · have hpn : perm.Nodup := hperm.symm.nodup (List.nodup_range _)
    have htn : (perm.take m).Nodup := (List.take_sublist m perm).nodup hpn
    refine List.Nodup.map_on ?_ htn
    intro i hi j hj hij
    have hiL : i < candidates.length :=
      List.mem_range.mp (hperm.mem_iff.mp (List.mem_of_mem_take hi))
    have hjL : j < candidates.length :=
      List.mem_range.mp (hperm.mem_iff.mp (List.mem_of_mem_take hj))
    rw [List.getD_eq_getElem candidates "" hiL,
      List.getD_eq_getElem candidates "" hjL] at hij
    exact (List.Nodup.getElem_inj_iff hnd).mp hij

/-- C5 (amended): for duplicate-free candidates — the Selector contract
types `candidates` as a set — and any permutation of their index range,
`selectRandomReviewers` returns all candidates when `|candidates| <=
desiredCount` (in particular `[]` for empty candidates), and otherwise
exactly `desiredCount` distinct elements of `candidates` with no
repeats. -/
theorem selectReviewers_spec (perm : List Nat) (candidates : List String)
    (desiredCount : Nat)
    (hperm : perm.Perm (List.range candidates.length))
    (hnd : candidates.Nodup) :
    (candidates.length ≤ desiredCount →
      selectRandomReviewers perm candidates desiredCount = candidates) ∧
    (candidates = [] →
      selectRandomReviewers perm candidates desiredCount = []) ∧
    (desiredCount < candidates.length →
      (selectRandomReviewers perm candidates desiredCount).length = desiredCount ∧
      (selectRandomReviewers perm candidates desiredCount).Nodup ∧
      ∀ r ∈ selectRandomReviewers perm candidates desiredCount, r ∈ candidates) := by
  refine ⟨fun h => by simp [selectRandomReviewers, h],
    fun h => by subst h; simp [selectRandomReviewers], fun h => ⟨?_, ?_, ?_⟩⟩
  · rw [selectRandomReviewers_length perm candidates _ hperm]
    omega
  · exact selectRandomReviewers_nodup perm candidates _ hperm hnd
  · exact selectRandomReviewers_subset perm candidates _ hperm

/-- C5 witness: the amended claim evaluated at a concrete input
(3 distinct candidates, desired count 2, permutation [2, 0, 1]). -/
theorem selectReviewers_spec_witness :
    (selectRandomReviewers [2, 0, 1] ["a", "b", "c"] 2).length = 2 ∧
    (selectRandomReviewers [2, 0, 1] ["a", "b", "c"] 2).Nodup ∧
    ∀ r ∈ selectRandomReviewers [2, 0, 1] ["a", "b", "c"] 2,
      r ∈ (["a", "b", "c"] : List String) :=
  (selectReviewers_spec [2, 0, 1] ["a", "b", "c"] 2
    (by decide) (by decide)).2.2 (by decide)

/-- C5 counterexample: the claim as stated quantifies over every input
list; with a duplicated candidate (a list that is not a set) and a valid
permutation, the selection contains a repeat, refuting "no repeats". -/
theorem selectReviewers_dup_counterexample :
    2 < (["a", "a", "b"] : List String).length ∧
    ([0, 1, 2] : List Nat).Perm (List.range (["a", "a", "b"] : List String).length) ∧
    ¬ (selectRandomReviewers [0, 1, 2] ["a", "a", "b"] 2).Nodup := by
  refine ⟨by decide, by decide, by decide⟩

theorem activeTeammates_nodup (s : State) (teamName excludeID : String)
    (hnd : usersNodup s) : (activeTeammates s teamName excludeID).Nodup := by
  unfold activeTeammates
  have hsub := (List.filter_sublist (l := s.users)
    (p := fun u => u.teamName == teamName && u.isActive && u.userID != excludeID)).map
    (fun u => u.userID)
  exact hsub.nodup hnd

theorem mem_activeTeammates (s : State) (teamName excludeID uid : String) :
    uid ∈ activeTeammates s teamName excludeID ↔
      (∃ u ∈ s.users, u.userID = uid ∧ u.teamName = teamName ∧ u.isActive = true) ∧
        uid ≠ excludeID := by
  unfold activeTeammates
  simp only [List.mem_map, List.mem_filter, Bool.and_eq_true, beq_iff_eq,
    bne_iff_ne, ne_eq]
  constructor
  · rintro ⟨u, ⟨hu, ⟨ht, ha⟩, hne⟩, rfl⟩
    exact ⟨⟨u, hu, rfl, ht, ha⟩, hne⟩
  · rintro ⟨⟨u, hu, rfl, ht, ha⟩, hne⟩
    exact ⟨u, ⟨hu, ⟨ht, ha⟩, hne⟩, rfl⟩

/-- C1: a successful `CreatePR(prID, prName, authorID)` never assigns the
author; every assigned reviewer is an active user of the author's team at
creation time; the reviewer set has exactly min(2, |eligible active
teammates|) members and no duplicates. -/
theorem createPR_reviewers_sound (s : State) (prID prName authorID : String)
    (now : Nat) (perm : List Nat) (author : User) (pr : PullRequest)
    (s' : State) (hnd : usersNodup s)
    (hauthor : findUser s authorID = some author)
    (hperm : perm.Perm
      (List.range (activeTeammates s author.teamName authorID).length))
    (hrun : CreatePR s prID prName authorID now perm = (Except.ok pr, s')) :
    authorID ∉ pr.assignedReviewers ∧
    pr.assignedReviewers.Nodup ∧
    pr.assignedReviewers.length =
      min 2 (activeTeammates s author.teamName authorID).length ∧
    ∀ r ∈ pr.assignedReviewers, ∃ u ∈ s.users,
      u.userID = r ∧ u.teamName = author.teamName ∧ u.isActive = true := by
  have hrev : pr.assignedReviewers =
      selectRandomReviewers perm (activeTeammates s author.teamName authorID) 2 := by
    by_cases hany : s.prs.any (fun p => p.pullRequestID == prID) = true
    · simp [CreatePR, hany] at hrun
    · simp only [CreatePR, hany, Bool.false_eq_true, if_false, hauthor,
        Prod.mk.injEq, Except.ok.injEq] at hrun
      obtain ⟨hpr, -⟩ := hrun
      subst hpr
      rfl
  have hsub := selectRandomReviewers_subset perm
    (activeTeammates s author.teamName authorID) 2 hperm
  refine ⟨?_, ?_, ?_, ?_⟩
  · intro hmem
    rw [hrev] at hmem
    exact ((mem_activeTeammates s author.teamName authorID authorID).mp
      (hsub _ hmem)).2 rfl
  · rw [hrev]
    exact selectRandomReviewers_nodup perm _ 2 hperm
      (activeTeammates_nodup s author.teamName authorID hnd)
  · rw [hrev]
    exact selectRandomReviewers_length perm _ 2 hperm
  · intro r hr
    rw [hrev] at hr
    exact ((mem_activeTeammates s author.teamName authorID r).mp (hsub _ hr)).1

/-- C1 witness: the theorem applied to the concrete scenario, where the
eligible active teammates of author A are exactly B and C. -/

theorem createPR_reviewers_sound_witness :
    "A" ∉ prW.assignedReviewers ∧
    prW.assignedReviewers.Nodup ∧
    prW.assignedReviewers.length =
      min 2 (activeTeammates sW userA.teamName "A").length ∧
    ∀ r ∈ prW.assignedReviewers, ∃ u ∈ sW.users,
      u.userID = r ∧ u.teamName = userA.teamName ∧ u.isActive = true :=
  createPR_reviewers_sound sW "p1" "fix" "A" 100 [0, 1] userA prW s1W
    (by unfold usersNodup; decide) (by decide) (by decide) (by rfl)

/-- The UPDATE of `MergePR` rewrites exactly the found row: `find?` over
the updated list returns the updated row. -/
theorem find_map_update (prs : List PullRequest) (prID : String)
    (pr : PullRequest) (st : String) (ma : Option Nat)
    (h : prs.find? (fun p => p.pullRequestID == prID) = some pr) :
    (prs.map (fun p => if p.pullRequestID == prID then
        { p with status := st, mergedAt := ma } else p)).find?
      (fun p => p.pullRequestID == prID) =
      some { pr with status := st, mergedAt := ma } := by
  induction prs with
  | nil => simp at h
  | cons hd tl ih =>
    by_cases hh : (hd.pullRequestID == prID) = true
    · simp only [List.find?_cons, hh, cond_true, Option.some.injEq] at h
      subst h
      rw [List.map_cons, if_pos hh]
      exact List.find?_cons_of_pos (p := fun q : PullRequest => q.pullRequestID == prID) _ hh
    · simp only [List.find?_cons, hh, cond_false] at h
      simp only [List.map_cons, hh, Bool.false_eq_true, if_false,
        List.find?_cons, cond_false]
      exact ih h

/-- C2: `MergePR` is idempotent.  On an already-MERGED pull request it
returns the stored state (status, merge timestamp, current reviewers)
and leaves the store unchanged; and after any successful `MergePR`, a
second call returns exactly the same payload and the same store. -/
theorem mergePR_idempotent (s : State) (prID : String) (now1 now2 : Nat) :
    (∀ pr, findPR s prID = some pr → pr.status = StatusMerged →
      MergePR s prID now1 =
        (Except.ok { pr with assignedReviewers := getReviewersFromDB s prID },
          s)) ∧
    (∀ pr1 s1, MergePR s prID now1 = (Except.ok pr1, s1) →
      MergePR s1 prID now2 = (Except.ok pr1, s1)) := by
  constructor
  · intro pr hpr hst
    simp [MergePR, hpr, hst]
  · intro pr1 s1 h1
    cases hf : findPR s prID with
    | none => rw [MergePR, hf] at h1; simp at h1
    | some pr =>
      by_cases hst : pr.status = StatusMerged
      · rw [MergePR, hf] at h1
        simp only [hst, beq_self_eq_true, if_pos, Prod.mk.injEq,
          Except.ok.injEq] at h1
        obtain ⟨hpr1, hs1⟩ := h1
        subst hs1
        rw [MergePR, hf]
        simp [hst, hpr1]
      · have hb : (pr.status == StatusMerged) = false := by
          simp [hst]
        rw [MergePR, hf] at h1
        simp only [hb, Bool.false_eq_true, if_false, Prod.mk.injEq,
          Except.ok.injEq] at h1
        obtain ⟨hpr1, hs1⟩ := h1
        subst hs1
        subst hpr1
        have hfind : findPR { s with prs := s.prs.map (fun p =>
            if p.pullRequestID == prID then
              { p with status := StatusMerged, mergedAt := some now1 }
            else p) } prID =
            some { pr with status := StatusMerged, mergedAt := some now1 } := by
          unfold findPR at hf ⊢
          exact find_map_update s.prs prID pr StatusMerged (some now1) hf
        rw [MergePR, hfind]
        simp [getReviewersFromDB]

/-- C2 witness: merging p1 a second time returns the payload of the first
merge unchanged, and the store unchanged. -/
theorem mergePR_idempotent_witness :
    MergePR s2W "p1" 300 = (Except.ok pr1M, s2W) :=
  (mergePR_idempotent s1W "p1" 200 300).2 pr1M s2W (by rfl)

/-- C3: `ReassignReviewer` fails with NotFound when the pull request is
absent, with PRMerged when it is MERGED, with NotAssigned when
`oldUserID` is not an assigned reviewer — and each error leaves the
store unchanged. -/
theorem reassign_error_cases (s : State) (prID oldUserID : String)
    (choice : Nat) :
    (findPR s prID = none →
      ReassignReviewer s prID oldUserID choice =
        (Except.error DBError.notFound, s)) ∧
    (∀ pr, findPR s prID = some pr → pr.status = StatusMerged →
      ReassignReviewer s prID oldUserID choice =
        (Except.error DBError.prMerged, s)) ∧
    (∀ pr, findPR s prID = some pr → pr.status ≠ StatusMerged →
      (prID, oldUserID) ∉ s.reviewers →
      ReassignReviewer s prID oldUserID choice =
        (Except.error DBError.notAssigned, s)) := by
  refine ⟨?_, ?_, ?_⟩
  · intro h
    simp [ReassignReviewer, h]
  · intro pr h hst
    simp [ReassignReviewer, h, hst]
  · intro pr h hst hmem
    simp [ReassignReviewer, h, hst, hmem]

/-- C3 witness: the three error cases on concrete stores. -/
theorem reassign_error_cases_witness :
    ReassignReviewer s1W "nope" "B" 0 = (Except.error DBError.notFound, s1W) ∧
    ReassignReviewer s2W "p1" "B" 0 = (Except.error DBError.prMerged, s2W) ∧
    ReassignReviewer s1W "p1" "D" 0 = (Except.error DBError.notAssigned, s1W) :=
  ⟨(reassign_error_cases s1W "nope" "B" 0).1 (by rfl),
   (reassign_error_cases s2W "p1" "B" 0).2.1 _ (by rfl) (by rfl),
   (reassign_error_cases s1W "p1" "D" 0).2.2 _ (by rfl) (by decide) (by decide)⟩

/-- When `ReassignReviewer` reaches candidate selection and the candidate
list is empty, it fails with NoCandidate and leaves the store
unchanged. -/
theorem reassign_noCandidate_eq (s : State) (prID oldUserID : String)
    (choice : Nat) (pr : PullRequest) (oldUser : User)
    (hpr : findPR s prID = some pr)
    (hopen : pr.status ≠ StatusMerged)
    (hassigned : (prID, oldUserID) ∈ s.reviewers)
    (holdUser : findUser s oldUserID = some oldUser)
    (hempty : reassignCandidates s prID pr.authorID oldUser.teamName = []) :
    ReassignReviewer s prID oldUserID choice =
      (Except.error DBError.noCandidate, s) := by
  simp [ReassignReviewer, hpr, hopen, hassigned, holdUser, hempty]

/-- When `ReassignReviewer` reaches candidate selection and the candidate
list is nonempty, it picks `candidates[choice % len]`, swaps the
assignment, and returns the re-read pull request with the replacement. -/
theorem reassign_success_eq (s : State) (prID oldUserID : String)
    (choice : Nat) (pr : PullRequest) (oldUser : User)
    (hpr : findPR s prID = some pr)
    (hopen : pr.status ≠ StatusMerged)
    (hassigned : (prID, oldUserID) ∈ s.reviewers)
    (holdUser : findUser s oldUserID = some oldUser)
    (hne : reassignCandidates s prID pr.authorID oldUser.teamName ≠ []) :
    ReassignReviewer s prID oldUserID choice =
      (Except.ok
        ({ pr with assignedReviewers := getReviewersFromDB (reassignState s prID oldUserID (reassignPick s prID pr.authorID oldUser.teamName choice)) prID },
          reassignPick s prID pr.authorID oldUser.teamName choice),
        reassignState s prID oldUserID (reassignPick s prID pr.authorID oldUser.teamName choice)) := by
  have hpr' : s.prs.find? (fun p => p.pullRequestID == prID) = some pr := hpr
  simp [ReassignReviewer, GetPR, findPR, hpr', hopen, hassigned, holdUser,
    hne, reassignPick, reassignState]

theorem mem_getReviewersFromDB (s : State) (prID uid : String) :
    uid ∈ getReviewersFromDB s prID ↔ (prID, uid) ∈ s.reviewers := by
  unfold getReviewersFromDB
  constructor
  · intro h
    obtain ⟨⟨a, b⟩, hab, rfl⟩ := List.mem_map.mp h
    obtain ⟨hm, hb⟩ := List.mem_filter.mp hab
    have : a = prID := by simpa using hb
    subst this
    exact hm
  · intro h
    exact List.mem_map.mpr ⟨(prID, uid), List.mem_filter.mpr ⟨h, by simp⟩, rfl⟩

theorem mem_reassignCandidates (s : State) (prID authorID teamName uid : String) :
    uid ∈ reassignCandidates s prID authorID teamName ↔
      ((∃ u ∈ s.users, u.userID = uid ∧ u.teamName = teamName ∧
          u.isActive = true) ∧ uid ≠ authorID) ∧
        uid ∉ getReviewersFromDB s prID := by
  unfold reassignCandidates
  rw [List.mem_filter, mem_activeTeammates]
  simp

theorem reassignPick_mem (s : State) (prID authorID teamName : String)
    (choice : Nat)
    (hne : reassignCandidates s prID authorID teamName ≠ []) :
    reassignPick s prID authorID teamName choice ∈
      reassignCandidates s prID authorID teamName := by
  unfold reassignPick
  have hlt : choice % (reassignCandidates s prID authorID teamName).length <
      (reassignCandidates s prID authorID teamName).length :=
    Nat.mod_lt _ (List.length_pos.mpr hne)
  rw [List.getD_eq_getElem _ _ hlt]
  exact List.getElem_mem hlt

/-- C4: when `ReassignReviewer` reaches candidate selection, the candidate
set is exactly the active users of the old reviewer's team minus the
author and minus every currently assigned reviewer (including
`oldUserID`); it fails with NoCandidate iff that set is empty; and a
successful call never picks the author or an already-assigned
reviewer. -/
theorem reassign_candidate_set (s : State) (prID oldUserID : String)
    (choice : Nat) (pr : PullRequest) (oldUser : User)
    (hpr : findPR s prID = some pr)
    (hopen : pr.status ≠ StatusMerged)
    (hassigned : (prID, oldUserID) ∈ s.reviewers)
    (holdUser : findUser s oldUserID = some oldUser) :
    (∀ uid, uid ∈ reassignCandidates s prID pr.authorID oldUser.teamName ↔
      ((∃ u ∈ s.users, u.userID = uid ∧ u.teamName = oldUser.teamName ∧
          u.isActive = true) ∧ uid ≠ pr.authorID) ∧
        uid ∉ getReviewersFromDB s prID) ∧
    oldUserID ∉ reassignCandidates s prID pr.authorID oldUser.teamName ∧
    ((ReassignReviewer s prID oldUserID choice).1 =
        Except.error DBError.noCandidate ↔
      reassignCandidates s prID pr.authorID oldUser.teamName = []) ∧
    (∀ pr2 newR,
      (ReassignReviewer s prID oldUserID choice).1 = Except.ok (pr2, newR) →
      newR ≠ pr.authorID ∧ newR ∉ getReviewersFromDB s prID) := by
  have hold : oldUserID ∈ getReviewersFromDB s prID :=
    (mem_getReviewersFromDB s prID oldUserID).mpr hassigned
  refine ⟨fun uid => mem_reassignCandidates s prID pr.authorID oldUser.teamName uid,
    ?_, ?_, ?_⟩
  · intro hmem
    exact ((mem_reassignCandidates s prID pr.authorID oldUser.teamName
      oldUserID).mp hmem).2 hold
  · by_cases hc : reassignCandidates s prID pr.authorID oldUser.teamName = []
    · rw [reassign_noCandidate_eq s prID oldUserID choice pr oldUser hpr hopen
        hassigned holdUser hc]
      simp [hc]
    · rw [reassign_success_eq s prID oldUserID choice pr oldUser hpr hopen
        hassigned holdUser hc]
      simp [hc]
  · intro pr2 newR hok
    by_cases hc : reassignCandidates s prID pr.authorID oldUser.teamName = []
    · rw [reassign_noCandidate_eq s prID oldUserID choice pr oldUser hpr hopen
        hassigned holdUser hc] at hok
      simp at hok
    · rw [reassign_success_eq s prID oldUserID choice pr oldUser hpr hopen
        hassigned holdUser hc] at hok
      have hnewR : reassignPick s prID pr.authorID oldUser.teamName choice = newR := by
        simpa using congrArg (fun x => x.2) (Except.ok.inj hok)
      have hmem := reassignPick_mem s prID pr.authorID oldUser.teamName choice hc
      rw [hnewR] at hmem
      have hchar := (mem_reassignCandidates s prID pr.authorID
        oldUser.teamName newR).mp hmem
      exact ⟨hchar.1.2, hchar.2⟩

/-- C4 witness: in the concrete scenario with D activated, reassigning B
away from p1 picks D — never the author A nor the still-assigned C. -/
theorem reassign_candidate_set_witness :
    "B" ∉ reassignCandidates sActW "p1" rowP1.authorID userB.teamName ∧
    ("D" ≠ rowP1.authorID ∧ "D" ∉ getReviewersFromDB sActW "p1") :=
  ⟨(reassign_candidate_set sActW "p1" "B" 0 rowP1 userB (by rfl) (by decide)
      (by decide) (by rfl)).2.1,
   (reassign_candidate_set sActW "p1" "B" 0 rowP1 userB (by rfl) (by decide)
      (by decide) (by rfl)).2.2.2
     { rowP1 with assignedReviewers := ["C", "D"] } "D" (by rfl)⟩

/-- C6: a successful `ReassignReviewer` changes only the reviewer table,
and there only by removing `(prID, oldUserID)` and appending
`(prID, newR)`; teams, users and all pull-request rows are untouched, and
the call returns the re-read pull request together with the replacement
reviewer. -/
theorem reassign_frame (s : State) (prID oldUserID : String) (choice : Nat)
    (pr2 : PullRequest) (newR : String) (s2 : State)
    (hrun : ReassignReviewer s prID oldUserID choice =
      (Except.ok (pr2, newR), s2)) :
    s2.teams = s.teams ∧ s2.users = s.users ∧ s2.prs = s.prs ∧
    s2.reviewers =
      s.reviewers.filter (fun a => a ≠ (prID, oldUserID)) ++ [(prID, newR)] ∧
    (prID, oldUserID) ∉ s2.reviewers ∧
    (prID, newR) ∈ s2.reviewers ∧
    ∃ pr, findPR s prID = some pr ∧
      pr2 = { pr with assignedReviewers := getReviewersFromDB s2 prID } := by
  cases hf : findPR s prID with
  | none =>
    rw [ReassignReviewer, hf] at hrun
    simp at hrun
  | some pr =>
    by_cases hst : pr.status = StatusMerged
    · rw [ReassignReviewer, hf] at hrun
      simp [hst] at hrun
    · by_cases hassigned : (prID, oldUserID) ∈ s.reviewers
      · cases hu : findUser s oldUserID with
        | none =>
          rw [ReassignReviewer, hf] at hrun
          simp [hst, hassigned, hu] at hrun
        | some oldUser =>
          by_cases hc : reassignCandidates s prID pr.authorID oldUser.teamName = []
          · rw [reassign_noCandidate_eq s prID oldUserID choice pr oldUser hf
              hst hassigned hu hc] at hrun
            simp at hrun
          · rw [reassign_success_eq s prID oldUserID choice pr oldUser hf
              hst hassigned hu hc] at hrun
            obtain ⟨hok, hs2⟩ := Prod.mk.inj hrun
            obtain ⟨hpr2, hnewR⟩ := Prod.mk.inj (Except.ok.inj hok)
            have hpickmem :=
              reassignPick_mem s prID pr.authorID oldUser.teamName choice hc
            have hpickchar := (mem_reassignCandidates s prID pr.authorID
              oldUser.teamName _).mp hpickmem
            have hnewold : newR ≠ oldUserID := by
              rw [← hnewR]
              intro heq
              exact hpickchar.2 (heq ▸
                (mem_getReviewersFromDB s prID oldUserID).mpr hassigned)
            subst hs2
            subst hnewR
            refine ⟨rfl, rfl, rfl, rfl, ?_, ?_, pr, rfl, hpr2.symm⟩
            · intro hmem
              rcases List.mem_append.mp hmem with hmem | hmem
              · have := (List.mem_filter.mp hmem).2
                simp at this
              · have : (prID, oldUserID) =
                    (prID, reassignPick s prID pr.authorID oldUser.teamName choice) := by
                  simpa using hmem
                exact hnewold (congrArg Prod.snd this).symm
            · exact List.mem_append.mpr (Or.inr (by simp [reassignState]))
      · rw [ReassignReviewer, hf] at hrun
        simp [hst, hassigned] at hrun

/-- C6 witness: the frame property on the concrete reassignment of B to
D. -/
theorem reassign_frame_witness :
    sReW.teams = sActW.teams ∧ sReW.users = sActW.users ∧
    sReW.prs = sActW.prs ∧
    sReW.reviewers =
      sActW.reviewers.filter (fun a => a ≠ ("p1", "B")) ++ [("p1", "D")] ∧
    ("p1", "B") ∉ sReW.reviewers ∧
    ("p1", "D") ∈ sReW.reviewers ∧
    ∃ pr, findPR sActW "p1" = some pr ∧
      { rowP1 with assignedReviewers := ["C", "D"] } =
        { pr with assignedReviewers := getReviewersFromDB sReW "p1" } :=
  reassign_frame sActW "p1" "B" 0
    { rowP1 with assignedReviewers := ["C", "D"] } "D" sReW (by rfl)

/-- C7: `GetTeam` fails with NotFound when the team is absent, and
otherwise returns the team name with exactly its current members, sorted
by username ascending. -/
theorem getTeam_spec (s : State) (teamName : String) :
    (teamName ∉ s.teams → GetTeam s teamName = Except.error DBError.notFound) ∧
    (teamName ∈ s.teams → ∃ t, GetTeam s teamName = Except.ok t ∧
      t.teamName = teamName ∧
      t.members.Perm ((s.users.filter (fun u => u.teamName == teamName)).map
        (fun u => ({ userID := u.userID, username := u.username, isActive := u.isActive } : TeamMember))) ∧
      t.members.Pairwise (fun a b => a.username ≤ b.username)) := by
  constructor
  · intro h
    simp [GetTeam, h]
  · intro h
    have hteam : GetTeam s teamName = Except.ok {
        teamName := teamName,
        members := ((s.users.filter (fun u => u.teamName == teamName)).map
          (fun u => ({ userID := u.userID, username := u.username, isActive := u.isActive } : TeamMember))).mergeSort
          (fun a b => a.username ≤ b.username) } := by
      simp [GetTeam, h]
    have htrans : ∀ a b c : TeamMember,
        decide (a.username ≤ b.username) = true →
        decide (b.username ≤ c.username) = true →
        decide (a.username ≤ c.username) = true := by
      intro a b c hab hbc
      simp only [decide_eq_true_eq] at hab hbc ⊢
      exact le_trans hab hbc
    have htotal : ∀ a b : TeamMember,
        (decide (a.username ≤ b.username) || decide (b.username ≤ a.username)) = true := by
      intro a b
      simp only [Bool.or_eq_true, decide_eq_true_eq]
      exact le_total _ _
    have hsorted : (((s.users.filter (fun u => u.teamName == teamName)).map
        (fun u => ({ userID := u.userID, username := u.username, isActive := u.isActive } : TeamMember))).mergeSort
        (fun a b => a.username ≤ b.username)).Pairwise
        (fun a b : TeamMember => decide (a.username ≤ b.username) = true) :=
      List.sorted_mergeSort htrans htotal _
    exact ⟨_, hteam, rfl, List.mergeSort_perm _ _,
      hsorted.imp (fun h => of_decide_eq_true h)⟩

/-- C7 witness: `GetTeam` on the concrete store returns the four members
of team "core" sorted by username. -/
theorem getTeam_spec_witness :
    ∃ t, GetTeam sW "core" = Except.ok t ∧ t.teamName = "core" ∧
      t.members.Perm ((sW.users.filter (fun u => u.teamName == "core")).map
        (fun u => ({ userID := u.userID, username := u.username, isActive := u.isActive } : TeamMember))) ∧
      t.members.Pairwise (fun a b => a.username ≤ b.username) :=
  (getTeam_spec sW "core").2 (by decide)

/-- C8 (amended): `SetUserActive` fails with NotFound exactly when
`userID` is absent, provided the query itself succeeds; an infrastructure
failure during the query is also reported as NotFound (the code maps
every scan error to the NotFound code), not as InternalError. -/
theorem setUserActive_spec (s : State) (userID : String)
    (isActive infraFail : Bool) :
    (infraFail = false →
      ((SetUserActive s userID isActive infraFail).1 =
          Except.error DBError.notFound ↔ findUser s userID = none)) ∧
    (infraFail = true →
      SetUserActive s userID isActive infraFail =
        (Except.error DBError.notFound, s)) := by
  constructor
  · intro hf
    subst hf
    cases hu : findUser s userID with
    | none => simp [SetUserActive, hu]
    | some u => simp [SetUserActive, hu]
  · intro hf
    subst hf
    simp [SetUserActive]

/-- C8 witness: the amended claim at concrete inputs — an unknown user
without infrastructure failure, and a present user with one. -/
theorem setUserActive_spec_witness :
    ((SetUserActive sW "ghost" true false).1 = Except.error DBError.notFound ↔
      findUser sW "ghost" = none) ∧
    SetUserActive sW "A" true true = (Except.error DBError.notFound, sW) :=
  ⟨(setUserActive_spec sW "ghost" true false).1 rfl,
   (setUserActive_spec sW "A" true true).2 rfl⟩

/-- C8 counterexample: user "A" exists, yet an infrastructure failure
during `SetUserActive` surfaces as the domain code NotFound rather than
as an internal error, refuting the claim as stated. -/
theorem setUserActive_infra_counterexample :
    findUser sW "A" = some userA ∧
    SetUserActive sW "A" true true = (Except.error DBError.notFound, sW) ∧
    (SetUserActive sW "A" true true).1 ≠ Except.error DBError.internal :=
  ⟨rfl, rfl, by simp [SetUserActive]⟩

/-- C9: `GetUserReviews` returns exactly the pull requests the user is
currently assigned to review, projected to (id, name, author, status),
ordered by creation time most recent first, and the empty list when there
are none — also for unknown users. -/
theorem getUserReviews_spec (s : State) (userID : String) :
    ∃ l : List PullRequest,
      GetUserReviews s userID = l.map toShort ∧
      l.Perm (s.prs.filter (fun p =>
        s.reviewers.contains (p.pullRequestID, userID))) ∧
      l.Pairwise (fun a b => b.createdAt ≤ a.createdAt) ∧
      ((∀ p ∈ s.prs, (p.pullRequestID, userID) ∉ s.reviewers) →
        GetUserReviews s userID = []) := by
  refine ⟨(s.prs.filter (fun p : PullRequest =>
      s.reviewers.contains (p.pullRequestID, userID))).mergeSort
    (fun a b => b.createdAt ≤ a.createdAt), rfl, List.mergeSort_perm _ _,
    ?_, ?_⟩
  · have htrans : ∀ a b c : PullRequest,
        decide (b.createdAt ≤ a.createdAt) = true →
        decide (c.createdAt ≤ b.createdAt) = true →
        decide (c.createdAt ≤ a.createdAt) = true := by
      intro a b c hab hbc
      simp only [decide_eq_true_eq] at hab hbc ⊢
      omega
    have htotal : ∀ a b : PullRequest,
        (decide (b.createdAt ≤ a.createdAt) ||
          decide (a.createdAt ≤ b.createdAt)) = true := by
      intro a b
      simp only [Bool.or_eq_true, decide_eq_true_eq]
      omega
    have hs : ((s.prs.filter (fun p =>
        s.reviewers.contains (p.pullRequestID, userID))).mergeSort
        (fun a b => b.createdAt ≤ a.createdAt)).Pairwise
        (fun a b : PullRequest => decide (b.createdAt ≤ a.createdAt) = true) :=
      List.sorted_mergeSort htrans htotal _
    exact hs.imp (fun h => of_decide_eq_true h)
  · intro hnone
    have hfil : s.prs.filter (fun p =>
        s.reviewers.contains (p.pullRequestID, userID)) = [] := by
      rw [List.filter_eq_nil_iff]
      intro p hp
      simpa using hnone p hp
    unfold GetUserReviews
    rw [hfil]
    simp [List.mergeSort_nil]

/-- C9 witness: the theorem at the concrete store, where B reviews p1. -/

theorem getUserReviews_spec_witness :
    ∃ l : List PullRequest,
      GetUserReviews s1W "B" = l.map toShort ∧
      l.Perm (s1W.prs.filter (fun p =>
        s1W.reviewers.contains (p.pullRequestID, "B"))) ∧
      l.Pairwise (fun a b => b.createdAt ≤ a.createdAt) ∧
      ((∀ p ∈ s1W.prs, (p.pullRequestID, "B") ∉ s1W.reviewers) →
        GetUserReviews s1W "B" = []) :=
  getUserReviews_spec s1W "B"

/-- C10: `CreatePR` checks the duplicate-id condition before resolving
the author: an existing prID yields PRExists regardless of the author,
a fresh prID with an unknown author yields NotFound, and both error
cases leave the store unchanged. -/
theorem createPR_check_order (s : State) (prID prName authorID : String)
    (now : Nat) (perm : List Nat) :
    (s.prs.any (fun p => p.pullRequestID == prID) = true →
      CreatePR s prID prName authorID now perm =
        (Except.error DBError.prExists, s)) ∧
    (s.prs.any (fun p => p.pullRequestID == prID) = false →
      findUser s authorID = none →
      CreatePR s prID prName authorID now perm =
        (Except.error DBError.notFound, s)) := by
  constructor
  · intro h
    simp [CreatePR, h]
  · intro h hu
    simp [CreatePR, h, hu]

/-- C10 witness: creating p1 again with an unknown author fails with
PRExists (not NotFound); a fresh id with an unknown author fails with
NotFound; the store is unchanged in both cases. -/
theorem createPR_check_order_witness :
    CreatePR s1W "p1" "x" "ghost" 500 [] =
      (Except.error DBError.prExists, s1W) ∧
    CreatePR s1W "p2" "x" "ghost" 500 [] =
      (Except.error DBError.notFound, s1W) :=
  ⟨(createPR_check_order s1W "p1" "x" "ghost" 500 []).1 (by rfl),
   (createPR_check_order s1W "p2" "x" "ghost" 500 []).2 (by rfl) (by rfl)⟩
